import Mathlib

/-!
Shallow embedding of the mingpao-backup-s3 crawl-and-archive pipeline.

Network interactions (HTTP responses, exceptions, random jitter) are
modelled as explicit environment parameters; machine state (the SQLite
ledger) is modelled as an explicit list of records threaded through the
functions.  Each definition is translated from the Python source file it
names in its doc comment.
-/

namespace MingPao

/-- One row of the `uploads` table (`database.py`, `_init_db`):
url is the primary key; title may be NULL. -/
structure UploadRecord where
  url : String
  ia_bucket : String
  ia_key : String
  title : Option String
deriving DecidableEq, Repr

/-- Embeds `database.py`, `is_archived`: true iff a row with this url exists. -/
def is_archived (db : List UploadRecord) (url : String) : Bool :=
  db.any (fun r => r.url == url)

/-- Embeds `database.py`, `record_upload`: INSERT OR REPLACE keyed on url
(last write wins, no duplicate url rows). -/
def record_upload (db : List UploadRecord) (url bucket key : String)
    (title : Option String) : List UploadRecord :=
  ⟨url, bucket, key, title⟩ :: db.filter (fun r => r.url ≠ url)

/-- Truth value of a Python function that can return True, False or
fall off the end (None). -/
inductive PyResult
  | pyTrue
  | pyFalse
  | pyNone
deriving DecidableEq, Repr

/-- Python truthiness of a `PyResult`: None and False are falsy. -/
def isTruthy : PyResult → Bool
  | .pyTrue => true
  | .pyFalse => false
  | .pyNone => false

/-- Outcome of one `requests.get` attempt in `archive_article`
(`main.py` lines 75-77): a 200 with a byte body, a non-200 status, or a
raised exception. -/
inductive FetchAttempt
  | ok (content : List Nat)
  | status (code : Nat)
  | exn
deriving DecidableEq, Repr

/-- Status codes treated as redirects in `main.py` line 83. -/
def redirectCodes : List Nat := [301, 302, 303, 307, 308]

/-- Result of the fetch retry loop of `archive_article`. -/
inductive FetchRes
  | content (c : List Nat)
  | notFound
  | failed
  | exhausted
deriving DecidableEq, Repr

/-- The fetch retry loop of `archive_article` (`main.py` lines 72-95):
`for attempt in range(max_retries + 1)`.  Returns the loop outcome, the
number of fetch attempts performed, and the list of backoff sleeps.
`fuel` is the number of loop iterations remaining; the top-level call
uses `fuel = maxRetries + 1` and `attempt = 0`.  `jit i` is the value
returned by `random.random()` on attempt `i`. -/
def fetchLoop (fetch : Nat → FetchAttempt) (jit : Nat → ℚ)
    (maxRetries attempt fuel : Nat) : FetchRes × Nat × List ℚ :=
  match fuel with
  | 0 => (.exhausted, 0, [])
  | fuel + 1 =>
    match fetch attempt with
    | .ok c => (.content c, 1, [])
    | .status code =>
      if code = 404 then (.notFound, 1, [])
      else if code ∈ redirectCodes then (.notFound, 1, [])
      else
        -- non-retryable-status branch: log a warning and loop, no sleep
        let r := fetchLoop fetch jit maxRetries (attempt + 1) fuel
        (r.1, r.2.1 + 1, r.2.2)
    | .exn =>
      if attempt < maxRetries then
        let r := fetchLoop fetch jit maxRetries (attempt + 1) fuel
        (r.1, r.2.1 + 1, ((2 ^ attempt : ℚ) + jit attempt) :: r.2.2)
      else (.failed, 1, [])

/-- Environment of one `archive_article` call: the behaviour of the
external world (source site, IA endpoints, the HTML title scraper). -/
structure ArchiveEnv where
  fetch : Nat → FetchAttempt
  jit : Nat → ℚ
  uploadResult : Bool
  verifyResult : Bool
  title : Option String

/-- Observable outcome of one `archive_article` call. -/
structure ArchiveOut where
  result : PyResult
  db : List UploadRecord
  attempts : Nat
  waits : List ℚ
  uploadCalled : Bool
  ledgerWrote : Bool
deriving DecidableEq, Repr

/-- Matches a literal character list at the head of `cs`; on success
returns the characters after the literal. -/
def dropLit : List Char → List Char → Option (List Char)
  | [], cs => some cs
  | _ :: _, [] => none
  | l :: ls, c :: cs => if c = l then dropLit ls cs else none

/-- Bool test: the literal is an initial segment of `cs`. -/
def startsWithLit (lit cs : List Char) : Bool :=
  (dropLit lit cs).isSome

/-- ASCII decimal digit, as matched by the regex class backslash-d. -/
def isDigitChar (c : Char) : Bool :=
  48 ≤ c.toNat && c.toNat ≤ 57

/-- Greedy match for the regex fragment consisting of one-or-more
non-slash characters followed by the literal "_r.htm": tries the
longest body first, exactly like regex backtracking.  `k` is the
candidate body length currently tried. -/
def bodyTry (cs : List Char) : Nat → Option (List Char)
  | 0 => none
  | k + 1 =>
    if (cs.take (k + 1)).all (fun c => c ≠ '/')
        && startsWithLit "_r.htm".data (cs.drop (k + 1)) then
      some (cs.take (k + 1))
    else bodyTry cs k

/-- Greedy body split starting from the whole remaining input. -/
def bodySplit (cs : List Char) : Option (List Char) :=
  bodyTry cs cs.length

/-- Attempts to match the regex of `main.py` line 62,
News/(eight digits/HK-[body]_r.htm), anchored at the head of `cs`;
returns group 1 on success. -/
def matchArticleAt (cs : List Char) : Option (List Char) :=
  match dropLit "News/".data cs with
  | none => none
  | some rest1 =>
    let d := rest1.take 8
    if d.length = 8 && d.all isDigitChar then
      match dropLit "/HK-".data (rest1.drop 8) with
      | none => none
      | some rest2 =>
        match bodySplit rest2 with
        | none => none
        | some body => some (d ++ "/HK-".data ++ body ++ "_r.htm".data)
    else none

/-- Models `re.search`: leftmost match of the article pattern in `cs`. -/
def searchArticle : List Char → Option (List Char)
  | [] => none
  | c :: cs =>
    match matchArticleAt (c :: cs) with
    | some g => some g
    | none => searchArticle cs

/-- Group 1 of the article-URL regex of `main.py` line 62, when the URL
matches. -/
def extractKey (url : String) : Option String :=
  (searchArticle url.data).map (fun g => ⟨g⟩)

/-- Python `s.split("/")` over character lists; the empty string splits
to one empty component. -/
def splitSlash : List Char → List (List Char)
  | [] => [[]]
  | c :: cs =>
    let r := splitSlash cs
    if c = '/' then [] :: r
    else
      match r with
      | [] => [[c]]
      | h :: t => (c :: h) :: t

/-- Python `"/".join(parts)` over character lists. -/
def joinSlash : List (List Char) → List Char
  | [] => []
  | [p] => p
  | p :: ps => p ++ '/' :: joinSlash ps

/-- Key derivation of `main.py` lines 62-66: regex group when the URL
matches, otherwise the last two slash-separated components joined. -/
def articleKey (url : String) : String :=
  match extractKey url with
  | some k => k
  | none =>
    let parts := splitSlash url.data
    ⟨joinSlash (parts.drop (parts.length - 2))⟩

/-- Embeds `main.py`, `archive_article` (lines 54-133), as a pure function of
the environment and the ledger state.  The IA client calls
(`upload_file`, `verify_file_uploaded`) are abstracted by their boolean
results from the environment; their own retry loops are embedded
separately from `ia_s3_client.py`.  The metadata-queue put affects no
state verified here.  A fall-through of the Python function body (upload
reported failure) yields None. -/
def archive_article (env : ArchiveEnv) (db : List UploadRecord)
    (url bucket : String) (maxRetries : Nat) (verifyUpload : Bool) :
    ArchiveOut :=
  if is_archived db url then
    { result := .pyTrue, db := db, attempts := 0, waits := [],
      uploadCalled := false, ledgerWrote := false }
  else
    let key := articleKey url
    match fetchLoop env.fetch env.jit maxRetries 0 (maxRetries + 1) with
    | (.notFound, n, ws) =>
      { result := .pyFalse, db := db, attempts := n, waits := ws,
        uploadCalled := false, ledgerWrote := false }
    | (.failed, n, ws) =>
      { result := .pyFalse, db := db, attempts := n, waits := ws,
        uploadCalled := false, ledgerWrote := false }
    | (.exhausted, n, ws) =>
      -- loop ended with content still None: `if not content: return False`
      { result := .pyFalse, db := db, attempts := n, waits := ws,
        uploadCalled := false, ledgerWrote := false }
    | (.content c, n, ws) =>
      if c.isEmpty then
        -- a 200 with an empty body is also falsy: `if not content`
        { result := .pyFalse, db := db, attempts := n, waits := ws,
          uploadCalled := false, ledgerWrote := false }
      else
        if env.uploadResult then
          if verifyUpload && !env.verifyResult then
            { result := .pyFalse, db := db, attempts := n, waits := ws,
              uploadCalled := true, ledgerWrote := false }
          else
            { result := .pyTrue,
              db := record_upload db url bucket key env.title,
              attempts := n, waits := ws,
              uploadCalled := true, ledgerWrote := true }
        else
          { result := .pyNone, db := db, attempts := n, waits := ws,
            uploadCalled := true, ledgerWrote := false }

/-- Character class of the regex [a-z0-9-.] in `ia_s3_client.py`
`sanitize_id`, by ASCII code: 97-122 lowercase letters, 48-57 digits,
45 dash, 46 dot. -/
def isAllowed (c : Char) : Bool :=
  (97 ≤ c.toNat && c.toNat ≤ 122) || (48 ≤ c.toNat && c.toNat ≤ 57)
    || c.toNat = 45 || c.toNat = 46

/-- Character class of the regex [a-z0-9] (lowercase alphanumeric). -/
def isLowerAlnum (c : Char) : Bool :=
  (97 ≤ c.toNat && c.toNat ≤ 122) || (48 ≤ c.toNat && c.toNat ≤ 57)

/-- Python `str.lower` on one character, ASCII fragment: codes 65-90
map down by 32, everything else is unchanged. -/
def pyLower (c : Char) : Char :=
  if 65 ≤ c.toNat && c.toNat ≤ 90 then Char.ofNat (c.toNat + 32) else c

/-- Embeds `ia_s3_client.py`, `sanitize_id` (lines 34-48): lowercase, replace
every character outside [a-z0-9-.] with a dash, strip the leading run
of characters outside [a-z0-9]. -/
def sanitize_id (s : String) : String :=
  let lowered := s.data.map pyLower
  let replaced := lowered.map (fun c => if isAllowed c then c else '-')
  ⟨replaced.dropWhile (fun c => !isLowerAlnum c)⟩

/-- Outcome of one `requests.put` attempt in `upload_file`
(`ia_s3_client.py` line 96): an HTTP status (200 included) or a raised
exception. -/
inductive UploadAttempt
  | status (code : Nat)
  | exn
deriving DecidableEq, Repr

/-- The retry loop of `ia_s3_client.py`, `upload_file` (lines 94-119):
`for attempt in range(max_retries + 1)`.  Returns the boolean result,
the number of attempts performed, and the backoff sleeps; the sleep on
a 500 is 2^attempt plus twice the jitter draw (line 103), on an
exception 2^attempt plus the jitter draw (line 112). -/
def uploadLoop (put : Nat → UploadAttempt) (jit : Nat → ℚ)
    (maxRetries attempt fuel : Nat) : Bool × Nat × List ℚ :=
  match fuel with
  | 0 => (false, 0, [])
  | fuel + 1 =>
    match put attempt with
    | .status code =>
      if code = 200 then (true, 1, [])
      else if code = 500 && attempt < maxRetries then
        let r := uploadLoop put jit maxRetries (attempt + 1) fuel
        (r.1, r.2.1 + 1, ((2 ^ attempt : ℚ) + 2 * jit attempt) :: r.2.2)
      else (false, 1, [])
    | .exn =>
      if attempt < maxRetries then
        let r := uploadLoop put jit maxRetries (attempt + 1) fuel
        (r.1, r.2.1 + 1, ((2 ^ attempt : ℚ) + jit attempt) :: r.2.2)
      else (false, 1, [])

/-- Embeds `ia_s3_client.py`, `upload_file`: the whole loop entered at attempt
zero with max_retries + 1 iterations available. -/
def upload_file (put : Nat → UploadAttempt) (jit : Nat → ℚ)
    (maxRetries : Nat) : Bool × Nat × List ℚ :=
  uploadLoop put jit maxRetries 0 (maxRetries + 1)

/-- Outcome of one `requests.post` attempt in `update_file_metadata`
(`ia_s3_client.py` line 234): HTTP 200 with a parsed JSON body carrying
a success flag and an error string, a non-200 status, or an exception
(network error or a body on which `.json()` raises). -/
inductive MetaResp
  | ok (success : Bool) (err : String)
  | status (code : Nat)
  | exn
deriving DecidableEq, Repr

/-- Loop body of `ia_s3_client.py`, `update_file_metadata`
(lines 232-274).  Every branch of the Python loop body returns True on
its first iteration (the 400 branch sleeps and then falls to a
`return True` at the same level); `fuel = 0` models the final
`return True` after the loop. -/
def metaLoop (post : Nat → MetaResp) (_maxRetries attempt fuel : Nat) :
    Bool :=
  match fuel with
  | 0 => true
  | _ + 1 =>
    match post attempt with
    | .ok success err =>
      if success then true
      else if (err.toLower.splitOn "no changes").length > 1 then true
      else true
    | .status code =>
      if code = 400 then true
      else if code = 429 then true
      else if 500 ≤ code then true
      else true
    | .exn => true

/-- Embeds `ia_s3_client.py`, `update_file_metadata`: empty title short-circuit
(line 210) and the retry loop. -/
def update_file_metadata (title : String) (post : Nat → MetaResp)
    (maxRetries : Nat) : Bool :=
  if title = "" then true
  else metaLoop post maxRetries 0 (maxRetries + 1)

/-- Embeds `url_generator.py`, `HK_GA_PREFIXES`: the 41 fixed section codes. -/
def HK_GA_CODES : List String :=
  ["gaa", "gab", "gac", "gad", "gae", "gaf", "gba", "gbb", "gbc", "gbd",
   "gbe", "gbf", "gca", "gcb", "gcc", "gcd", "gce", "gcf", "gga", "ggb",
   "ggc", "ggd", "gge", "ggf", "ggh", "gha", "ghb", "ghc", "ghd", "ghe",
   "ghf", "gma", "gmb", "gmc", "gmd", "gme", "gmf", "gmg", "gza", "gzb",
   "gzc"]

/-- Embeds `url_generator.py`, `BASE_URL`. -/
def BASE_URL : String := "http://www.mingpaocanada.com/tor"

/-- Embeds `url_generator.py`, `_generate_bruteforce` (lines 77-85): one URL
per section code and number, codes in declaration order, numbers from
`range(1, 9)`. -/
def generate_bruteforce (dateStr : String) : List String :=
  let basePath := BASE_URL ++ "/htm/News/" ++ dateStr
  HK_GA_CODES.flatMap (fun code =>
    (List.range' 1 8).map (fun num =>
      basePath ++ "/HK-" ++ code ++ toString num ++ "_r.htm"))

/-- Embeds `url_generator.py`, `get_article_urls` (lines 28-34): index
discovery first, brute force when it yields nothing.  The network-
dependent result of `_discover_from_index` is passed in as
`discovered`. -/
def get_article_urls (discovered : List String) (dateStr : String) :
    List String :=
  if discovered.isEmpty then generate_bruteforce dateStr else discovered

/-- Embeds `database.py`, `get_titles_by_keys` (lines 76-84).  The rendered
SQL for an empty key list contains the clause "IN ()", which SQLite
rejects with a syntax error, so `cursor.execute` raises
(`Except.error`).  For a non-empty list the query returns the rows
whose `ia_key` is among the keys; the Python dict comprehension keys
the result by `ia_key`. -/
def get_titles_by_keys (db : List UploadRecord) (keys : List String) :
    Except Unit (List (String × Option String)) :=
  if keys = [] then Except.error ()
  else
    Except.ok (db.filterMap (fun r =>
      if r.ia_key ∈ keys then some (r.ia_key, r.title) else none))

/-- Embeds `main.py` line 474: the Orchestrator guards the empty-key case,
`db.get_titles_by_keys(all_keys) if all_keys else` the empty dict. -/
def mainTitlesLookup (db : List UploadRecord) (all_keys : List String) :
    Except Unit (List (String × Option String)) :=
  if all_keys.isEmpty then Except.ok []
  else get_titles_by_keys db all_keys

/-- Embeds `main.py` lines 444-447: the per-date contribution to
`articles_by_month` appends the regex group of every URL in
`urls_to_process` that matches, with no success check. -/
def trackDateKeys (urls_to_process : List String) : List String :=
  urls_to_process.filterMap extractKey

/-- One date iteration of the Orchestrator loop (`main.py` lines
405-447), with the worker-pool execution of `archive_article` over
`urls_to_process` modelled sequentially: final ledger, count of
positive results (line 429-430), and the keys appended to
`articles_by_month` for this date. -/
def processDate (envOf : String → ArchiveEnv) (db : List UploadRecord)
    (urls_to_process : List String) (bucket : String) (maxRetries : Nat)
    (verifyUpload : Bool) : List UploadRecord × Nat × List String :=
  let step := urls_to_process.foldl (fun acc url =>
    let out := archive_article (envOf url) acc.1 url bucket maxRetries
      verifyUpload
    (out.db, acc.2 + (if isTruthy out.result then 1 else 0))) (db, 0)
  (step.1, step.2, trackDateKeys urls_to_process)

/-! Concrete fixtures used by witness and counterexample theorems. -/

/-- An environment whose fetch always raises and whose uploads fail. -/
def stubEnv : ArchiveEnv :=
  { fetch := fun _ => .exn, jit := fun _ => 0, uploadResult := false,
    verifyResult := false, title := none }

/-- An environment whose first fetch answers HTTP 404. -/
def env404 : ArchiveEnv :=
  { fetch := fun _ => .status 404, jit := fun _ => 0, uploadResult := true,
    verifyResult := true, title := none }

/-- A one-row ledger. -/
def dbOne : List UploadRecord :=
  [⟨"http://e/a", "b", "k", none⟩]

/-- C6: for every title and every possible HTTP outcome of the
metadata-patch request (200 with or without a success flag, 400, 429,
any 5xx, any other status, a malformed body, or an exception),
`update_file_metadata` returns True; the embedding is a total function,
so no exception escapes. -/
theorem update_file_metadata_soft_success (title : String)
    (post : Nat → MetaResp) (maxRetries : Nat) :
    update_file_metadata title post maxRetries = true := by
  unfold update_file_metadata
  split
  · rfl
  · show metaLoop post maxRetries 0 (maxRetries + 1) = true
    simp only [metaLoop]
    cases post 0 <;> simp

/-- C2: for every URL already present in the Ledger, `archive_article`
returns success immediately, performs no fetch attempt and no upload
call, writes nothing, and leaves the ledger unchanged. -/
theorem archive_article_short_circuit (env : ArchiveEnv)
    (db : List UploadRecord) (url bucket : String) (maxRetries : Nat)
    (verifyUpload : Bool) (h : is_archived db url = true) :
    archive_article env db url bucket maxRetries verifyUpload =
      { result := .pyTrue, db := db, attempts := 0, waits := [],
        uploadCalled := false, ledgerWrote := false } := by
  simp [archive_article, h]

/-- Witness for C2 at a concrete archived URL. -/
theorem archive_article_short_circuit_witness :
    is_archived dbOne "http://e/a" = true ∧
    archive_article stubEnv dbOne "http://e/a" "b" 3 false =
      { result := .pyTrue, db := dbOne, attempts := 0, waits := [],
        uploadCalled := false, ledgerWrote := false } :=
  ⟨by decide,
   archive_article_short_circuit stubEnv dbOne "http://e/a" "b" 3 false
     (by decide)⟩

/-- C3: a first fetch response with status 404 or a redirect status
makes `archive_article` return False after exactly one attempt, with no
retry, no backoff sleep, no upload call and no ledger write, for every
remaining retry budget. -/
theorem archive_article_redirect_as_missing (env : ArchiveEnv)
    (db : List UploadRecord) (url bucket : String) (maxRetries : Nat)
    (verifyUpload : Bool) (code : Nat)
    (hna : is_archived db url = false)
    (hfetch : env.fetch 0 = .status code)
    (hcode : code = 404 ∨ code ∈ redirectCodes) :
    archive_article env db url bucket maxRetries verifyUpload =
      { result := .pyFalse, db := db, attempts := 1, waits := [],
        uploadCalled := false, ledgerWrote := false } := by
  have hloop : fetchLoop env.fetch env.jit maxRetries 0 (maxRetries + 1)
      = (.notFound, 1, []) := by
    simp only [fetchLoop, hfetch]
    rcases hcode with rfl | h
    · simp
    · have h404 : code ≠ 404 := by
        rcases (by simpa [redirectCodes] using h :
            code = 301 ∨ code = 302 ∨ code = 303 ∨ code = 307 ∨ code = 308)
          with rfl | rfl | rfl | rfl | rfl <;> decide
      simp [h404, h]
  simp [archive_article, hna, hloop]

/-- Witness for C3 at a concrete 404 response with retry budget 5. -/
theorem archive_article_redirect_as_missing_witness :
    is_archived [] "u" = false ∧ env404.fetch 0 = .status 404 ∧
    archive_article env404 [] "u" "b" 5 false =
      { result := .pyFalse, db := [], attempts := 1, waits := [],
        uploadCalled := false, ledgerWrote := false } :=
  ⟨by decide, rfl,
   archive_article_redirect_as_missing env404 [] "u" "b" 5 false 404
     (by decide) rfl (Or.inl rfl)⟩

/-- The replacement step only produces characters of the allowed
class. -/
theorem isAllowed_replace (c : Char) :
    isAllowed (if isAllowed c then c else '-') = true := by
  split
  · assumption
  · decide

/-- Lowercasing fixes every character of the allowed class. -/
theorem pyLower_of_isAllowed (c : Char) (h : isAllowed c = true) :
    pyLower c = c := by
  simp only [isAllowed, Bool.or_eq_true, Bool.and_eq_true,
    decide_eq_true_eq] at h
  have hcond : (65 ≤ c.toNat && c.toNat ≤ 90) ≠ true := by
    simp only [Bool.and_eq_true, decide_eq_true_eq, ne_eq, not_and]
    omega
  simp [pyLower, hcond]

/-- Lowercase alphanumerics are in the allowed class. -/
theorem isAllowed_of_isLowerAlnum (c : Char) (h : isLowerAlnum c = true) :
    isAllowed c = true := by
  simp only [isLowerAlnum, Bool.or_eq_true, Bool.and_eq_true,
    decide_eq_true_eq] at h
  simp only [isAllowed, Bool.or_eq_true, Bool.and_eq_true,
    decide_eq_true_eq]
  omega

/-- Every character of a sanitized identifier is in the allowed
class. -/
theorem sanitize_id_mem_allowed (s : String) (c : Char)
    (h : c ∈ (sanitize_id s).data) : isAllowed c = true := by
  have hrep : c ∈ (s.data.map pyLower).map
      (fun c => if isAllowed c then c else '-') :=
    (List.dropWhile_sublist _).subset h
  rcases List.mem_map.1 hrep with ⟨a, _, rfl⟩
  exact isAllowed_replace a

/-- The head of a sanitized identifier, when present, is a lowercase
alphanumeric. -/
theorem sanitize_id_head_alnum (s : String) (c : Char)
    (h : (sanitize_id s).data.head? = some c) : isLowerAlnum c = true := by
  have := List.head?_dropWhile_not (fun c => !isLowerAlnum c)
    ((s.data.map pyLower).map (fun c => if isAllowed c then c else '-'))
  rw [show ((s.data.map pyLower).map
      (fun c => if isAllowed c then c else '-')).dropWhile
      (fun c => !isLowerAlnum c) = (sanitize_id s).data from rfl, h] at this
  simpa using this

/-- C5: `sanitize_id` produces only characters of [a-z0-9-.], never
starts with a dash or a dot unless the result is empty after stripping,
and is idempotent. -/
theorem sanitize_id_spec (s : String) :
    (∀ c ∈ (sanitize_id s).data, isAllowed c = true) ∧
    (∀ c, (sanitize_id s).data.head? = some c → c ≠ '-' ∧ c ≠ '.') ∧
    sanitize_id (sanitize_id s) = sanitize_id s := by
  refine ⟨fun c hc => sanitize_id_mem_allowed s c hc, fun c hc => ?_, ?_⟩
  · have h := sanitize_id_head_alnum s c hc
    constructor <;> rintro rfl <;> exact absurd h (by decide)
  · have hallowed := fun c hc => sanitize_id_mem_allowed s c hc
    have hhead := fun c hc => sanitize_id_head_alnum s c hc
    rcases hr : sanitize_id s with ⟨r⟩
    rw [hr] at hallowed hhead
    have hlower : r.map pyLower = r := by
      have h1 : r.map pyLower = r.map id :=
        List.map_congr_left fun c hc => pyLower_of_isAllowed c (hallowed c hc)
      simpa using h1
    have hrepl : r.map (fun c => if isAllowed c then c else '-') = r := by
      have h1 : r.map (fun c => if isAllowed c then c else '-') = r.map id :=
        List.map_congr_left fun c hc => if_pos (hallowed c hc)
      simpa using h1
    show String.mk ((((r.map pyLower).map
      (fun c => if isAllowed c then c else '-')).dropWhile
        (fun c => !isLowerAlnum c))) = ⟨r⟩
    rw [hlower, hrepl]
    cases r with
    | nil => rfl
    | cons c cs =>
      have : isLowerAlnum c = true := hhead c rfl
      simp [List.dropWhile_cons, this]

/-- Witness for C5: evaluation at a concrete identifier and the
idempotence instance obtained from the theorem. -/
theorem sanitize_id_spec_witness :
    sanitize_id "A/b.C" = "a-b.c" ∧
    sanitize_id (sanitize_id "A/b.C") = sanitize_id "A/b.C" :=
  ⟨by decide, (sanitize_id_spec "A/b.C").2.2⟩

/-- The per-article suffix of a brute-force URL: what
`_generate_bruteforce` appends after the date-dependent base path. -/
def bruteforceNames : List String :=
  HK_GA_CODES.flatMap (fun code =>
    (List.range' 1 8).map (fun num => "/HK-" ++ code ++ toString num ++ "_r.htm"))

/-- Lexicographic strict order on character lists by code point, the
order Python uses when comparing these ASCII strings. -/
def listLtB : List Char → List Char → Bool
  | [], [] => false
  | [], _ :: _ => true
  | _ :: _, [] => false
  | a :: as, b :: bs =>
    if a.toNat < b.toNat then true
    else if b.toNat < a.toNat then false
    else listLtB as bs

/-- Lexicographic strict order on strings. -/
def strLtB (s t : String) : Bool := listLtB s.data t.data

/-- Prepending a common character list preserves the lexicographic
comparison. -/
theorem listLtB_append (p a b : List Char) :
    listLtB (p ++ a) (p ++ b) = listLtB a b := by
  induction p with
  | nil => rfl
  | cons c cs ih => simp [listLtB, lt_self_iff_false, ih]

/-- Prepending a common string preserves the lexicographic
comparison. -/
theorem strLtB_append (p a b : String) :
    strLtB (p ++ a) (p ++ b) = strLtB a b := by
  simp [strLtB, String.data_append, listLtB_append]

/-- The brute-force generator is the suffix table mapped over the
date-dependent base path. -/
theorem generate_bruteforce_eq_map (dateStr : String) :
    generate_bruteforce dateStr =
      bruteforceNames.map
        (fun s => BASE_URL ++ "/htm/News/" ++ dateStr ++ s) := by
  simp only [generate_bruteforce, bruteforceNames, List.map_flatMap,
    List.map_map, Function.comp_def, String.append_assoc]

/-- Executable strict-sortedness test for a list of strings. -/
def sortedB : List String → Bool
  | [] => true
  | [_] => true
  | a :: b :: rest => strLtB a b && sortedB (b :: rest)

/-- A `sortedB` list is an ascending chain. -/
theorem chain'_of_sortedB :
    ∀ l : List String, sortedB l = true →
      List.Chain' (fun s t => strLtB s t = true) l
  | [], _ => List.chain'_nil
  | [_], _ => List.chain'_singleton _
  | a :: b :: rest, h => by
    rw [show sortedB (a :: b :: rest) = (strLtB a b && sortedB (b :: rest))
      from rfl, Bool.and_eq_true] at h
    exact List.chain'_cons.2 ⟨h.1, chain'_of_sortedB (b :: rest) h.2⟩

set_option maxRecDepth 4000 in
/-- The 328 brute-force suffixes are strictly increasing. -/
theorem chain'_bruteforceNames :
    List.Chain' (fun s t => strLtB s t = true) bruteforceNames :=
  chain'_of_sortedB bruteforceNames (by decide)

set_option maxRecDepth 4000 in
/-- There are 41 times 8 brute-force suffixes. -/
theorem bruteforceNames_length : bruteforceNames.length = 328 := by
  decide

/-- C4: when index discovery yields no URLs, `get_article_urls` returns
the brute-force candidate list, which has exactly 41 times 8 = 328
URLs, is non-empty, and is strictly sorted in lexicographic order by
construction, for every date string. -/
theorem discovery_fallback_complete (discovered : List String)
    (dateStr : String) (h : discovered = []) :
    get_article_urls discovered dateStr = generate_bruteforce dateStr ∧
    (generate_bruteforce dateStr).length = HK_GA_CODES.length * 8 ∧
    (generate_bruteforce dateStr).length = 328 ∧
    generate_bruteforce dateStr ≠ [] ∧
    List.Chain' (fun s t => strLtB s t = true)
      (generate_bruteforce dateStr) := by
  subst h
  have hlen : (generate_bruteforce dateStr).length = 328 := by
    rw [generate_bruteforce_eq_map, List.length_map, bruteforceNames_length]
  refine ⟨by simp [get_article_urls], ?_, hlen, ?_, ?_⟩
  · rw [hlen]; decide
  · intro hnil
    rw [hnil] at hlen
    exact absurd hlen (by decide)
  · rw [generate_bruteforce_eq_map, List.chain'_map]
    exact chain'_bruteforceNames.imp
      (fun a b hab => by rw [strLtB_append]; exact hab)

/-- Witness for C4 at the concrete date of the spec scenario. -/
theorem discovery_fallback_complete_witness :
    (get_article_urls [] "20250105").length = 328 := by
  have h := discovery_fallback_complete [] "20250105" rfl
  rw [h.1]
  exact h.2.2.1

/-- The backoff sleep taken before retrying attempt `i + 1` of
`upload_file`: 2^i plus twice the jitter draw after a 500, 2^i plus
the jitter draw after an exception. -/
def uploadWait (put : Nat → UploadAttempt) (jit : Nat → ℚ) (i : Nat) : ℚ :=
  (2 ^ i : ℚ) + (if put i = .exn then jit i else 2 * jit i)

/-- Characterization of the `upload_file` retry loop from any starting
attempt: if every attempt before `k` is retryable (500 or exception)
and attempt `k` is terminal (non-retryable outcome, or the retry budget
is exhausted), the loop stops at attempt `k`, returns true exactly when
attempt `k` got HTTP 200, and slept once per retried attempt. -/
theorem uploadLoop_characterize (put : Nat → UploadAttempt)
    (jit : Nat → ℚ) (maxRetries : Nat) :
    ∀ fuel attempt k, attempt + fuel = maxRetries + 1 → attempt ≤ k →
      k ≤ maxRetries →
      (∀ i, attempt ≤ i → i < k → (put i = .status 500 ∨ put i = .exn)) →
      ¬(k < maxRetries ∧ (put k = .status 500 ∨ put k = .exn)) →
      uploadLoop put jit maxRetries attempt fuel =
        (decide (put k = .status 200), k + 1 - attempt,
         (List.range' attempt (k - attempt)).map (uploadWait put jit)) := by
  intro fuel
  induction fuel with
  | zero => intro attempt k h1 h2 h3 _ _; omega
  | succ f ih =>
    intro attempt k h1 hak hk hret hterm
    rcases Nat.eq_or_lt_of_le hak with rfl | hlt
    · -- the loop is at its terminal attempt
      have hrange : attempt - attempt = 0 := by omega
      have hcount : attempt + 1 - attempt = 1 := by omega
      simp only [uploadLoop]
      cases hput : put attempt with
      | status code =>
        by_cases h200 : code = 200
        · subst h200
          simp [hput, hrange, hcount]
        · have h500 : ¬(code = 500 ∧ attempt < maxRetries) := by
            intro ⟨hc, hm⟩
            exact hterm ⟨hm, Or.inl (hc ▸ hput)⟩
          have hcond : (code = 500 && attempt < maxRetries) = false := by
            simp only [Bool.and_eq_false_iff, decide_eq_false_iff_not]
            by_cases hc : code = 500
            · exact Or.inr (fun hm => h500 ⟨hc, hm⟩)
            · exact Or.inl hc
          have : (put attempt = UploadAttempt.status 200) = False := by
            simp [hput, h200]
          simp [h200, hcond, hput, hrange, hcount, this]
      | exn =>
        have hm : ¬ attempt < maxRetries := fun hm =>
          hterm ⟨hm, Or.inr hput⟩
        simp [hput, hm, hrange, hcount]
    · -- the current attempt is retried
      have hattm : attempt < maxRetries := by omega
      have hstep := ih (attempt + 1) k (by omega) (by omega) hk
        (fun i hi1 hi2 => hret i (by omega) hi2) hterm
      have hrange : k - attempt = (k - (attempt + 1)) + 1 := by omega
      have hrange' : List.range' attempt (k - attempt) =
          attempt :: List.range' (attempt + 1) (k - (attempt + 1)) := by
        rw [hrange, List.range'_succ]
      simp only [uploadLoop]
      rcases hret attempt (le_refl attempt) hlt with hput | hput
      · rw [hrange', List.map_cons]
        simp only [hput, hstep]
        norm_num [uploadWait, hput, hattm]
        exact ⟨by omega, by simp⟩
      · rw [hrange', List.map_cons]
        simp only [hput, hstep, if_pos hattm]
        norm_num [uploadWait, hput]
        omega

/-- C7: `upload_file` reports every outcome through its boolean result
and the embedding is total, so no exception escapes.  With `k` the first
terminal attempt (every earlier attempt got a 500 or an exception and
was retried, and attempt `k` either has a non-retryable outcome or
exhausts the budget `k = maxRetries`): the call returns true exactly
when attempt `k` got HTTP 200, performs `k + 1 ≤ maxRetries + 1`
attempts, and sleeps `2^i` plus a jitter term before each retry. -/
theorem upload_file_spec (put : Nat → UploadAttempt) (jit : Nat → ℚ)
    (maxRetries k : Nat) (hk : k ≤ maxRetries)
    (hret : ∀ i < k, put i = .status 500 ∨ put i = .exn)
    (hterm : ¬(k < maxRetries ∧ (put k = .status 500 ∨ put k = .exn))) :
    upload_file put jit maxRetries =
      (decide (put k = .status 200), k + 1,
       (List.range k).map (uploadWait put jit)) := by
  have h := uploadLoop_characterize put jit maxRetries (maxRetries + 1) 0 k
    (by omega) (Nat.zero_le k) hk (fun i _ hik => hret i hik) hterm
  simpa [upload_file, List.range_eq_range'] using h

/-- A transcript whose first attempt hits lock contention (500) and
whose second attempt succeeds. -/
def put500then200 : Nat → UploadAttempt :=
  fun i => if i = 0 then .status 500 else .status 200

/-- Witness for C7: one 500 retry followed by a 200, with jitter draw
one half, gives success after two attempts and a single backoff sleep
of 2^0 + 2 times one half = 2 seconds. -/
theorem upload_file_spec_witness :
    upload_file put500then200 (fun _ => (1 : ℚ)/2) 3 =
      (true, 2, [(2 : ℚ)]) := by
  rw [upload_file_spec put500then200 (fun _ => (1 : ℚ)/2) 3 1
    (by decide) (by decide) (by decide)]
  rw [show List.range 1 = [0] from rfl, List.map_cons, List.map_nil]
  norm_num [put500then200, uploadWait]
  rw [if_neg (show ¬(UploadAttempt.status 500 = UploadAttempt.exn) by simp)]
  norm_num

/-- The fetch retry loop under persistent transient failure: when every
attempt from `attempt` through `maxRetries` raises, the loop performs
all its remaining iterations, sleeps 2^i plus the jitter draw before
each retry, and gives up. -/
theorem fetchLoop_exn_step (fetch : Nat → FetchAttempt) (jit : Nat → ℚ)
    (maxRetries attempt fuel : Nat) (h : fetch attempt = .exn) :
    fetchLoop fetch jit maxRetries attempt (fuel + 1) =
      if attempt < maxRetries then
        ((fetchLoop fetch jit maxRetries (attempt + 1) fuel).1,
         (fetchLoop fetch jit maxRetries (attempt + 1) fuel).2.1 + 1,
         ((2 ^ attempt : ℚ) + jit attempt) ::
           (fetchLoop fetch jit maxRetries (attempt + 1) fuel).2.2)
      else (.failed, 1, []) := by
  simp only [fetchLoop, h]

theorem fetchLoop_all_exn (fetch : Nat → FetchAttempt) (jit : Nat → ℚ)
    (maxRetries : Nat) :
    ∀ f attempt, attempt + (f + 1) = maxRetries + 1 →
      (∀ i, attempt ≤ i → i ≤ maxRetries → fetch i = .exn) →
      fetchLoop fetch jit maxRetries attempt (f + 1) =
        (.failed, f + 1,
         (List.range' attempt f).map (fun i => (2 ^ i : ℚ) + jit i)) := by
  intro f
  induction f with
  | zero =>
    intro attempt h1 hexn
    have hatt : attempt = maxRetries := by omega
    have hthis := hexn attempt (le_refl attempt) (by omega)
    rw [fetchLoop_exn_step fetch jit maxRetries attempt 0 hthis,
      if_neg (by omega), hatt]
    rfl
  | succ f ih =>
    intro attempt h1 hexn
    have hattm : attempt < maxRetries := by omega
    have hthis := hexn attempt (le_refl attempt) (by omega)
    have hstep := ih (attempt + 1) (by omega)
      (fun i hi1 hi2 => hexn i (by omega) hi2)
    rw [fetchLoop_exn_step fetch jit maxRetries attempt (f + 1) hthis,
      if_pos hattm, hstep, List.range'_succ, List.map_cons]

/-- C8: when every fetch attempt fails transiently (raises),
`archive_article` performs exactly maxRetries + 1 fetch attempts,
returns False with the ledger untouched, and each retry is preceded by
a backoff wait of 2^attempt plus the jitter draw of that attempt,
sub-second when the jitter draws are in [0, 1). -/
theorem archive_article_transient_exhaustion (env : ArchiveEnv)
    (db : List UploadRecord) (url bucket : String) (maxRetries : Nat)
    (verifyUpload : Bool)
    (hna : is_archived db url = false)
    (hexn : ∀ i ≤ maxRetries, env.fetch i = .exn) :
    archive_article env db url bucket maxRetries verifyUpload =
      { result := .pyFalse, db := db, attempts := maxRetries + 1,
        waits := (List.range maxRetries).map
          (fun i => (2 ^ i : ℚ) + env.jit i),
        uploadCalled := false, ledgerWrote := false } ∧
    (∀ w ∈ (archive_article env db url bucket maxRetries
        verifyUpload).waits, ∃ i < maxRetries, w = (2 ^ i : ℚ) + env.jit i) ∧
    ((∀ i, 0 ≤ env.jit i ∧ env.jit i < 1) →
      ∀ w ∈ (archive_article env db url bucket maxRetries
        verifyUpload).waits, ∃ i < maxRetries,
          (2 ^ i : ℚ) ≤ w ∧ w < 2 ^ i + 1) := by
  have hloop := fetchLoop_all_exn env.fetch env.jit maxRetries maxRetries 0
    (by omega) (fun i _ h2 => hexn i h2)
  have hmain : archive_article env db url bucket maxRetries verifyUpload =
      { result := .pyFalse, db := db, attempts := maxRetries + 1,
        waits := (List.range maxRetries).map
          (fun i => (2 ^ i : ℚ) + env.jit i),
        uploadCalled := false, ledgerWrote := false } := by
    simp [archive_article, hna, hloop, List.range_eq_range']
  refine ⟨hmain, fun w hw => ?_, fun hjit w hw => ?_⟩
  · rw [hmain] at hw
    rcases List.mem_map.1 hw with ⟨i, hi, rfl⟩
    exact ⟨i, List.mem_range.1 hi, rfl⟩
  · rw [hmain] at hw
    rcases List.mem_map.1 hw with ⟨i, hi, rfl⟩
    refine ⟨i, List.mem_range.1 hi, ?_, ?_⟩
    · have := (hjit i).1
      linarith
    · have := (hjit i).2
      linarith

/-- Witness for C8 at retry budget 2 with jitter draws equal to 0. -/
theorem archive_article_transient_exhaustion_witness :
    is_archived [] "u" = false ∧
    archive_article stubEnv [] "u" "b" 2 false =
      { result := .pyFalse, db := [], attempts := 3,
        waits := [(1 : ℚ), 2], uploadCalled := false,
        ledgerWrote := false } := by
  have h := archive_article_transient_exhaustion stubEnv [] "u" "b" 2 false
    (by decide) (fun i _ => rfl)
  refine ⟨by decide, ?_⟩
  rw [h.1]
  rw [show List.range 2 = [0, 1] from rfl, List.map_cons, List.map_cons,
    List.map_nil]
  norm_num [stubEnv]

/-- The fetch stage of `archive_article` ends without usable content:
not-found, retries exhausted, loop ended with no 200, or a 200 with an
empty body. -/
def fetchFailed (env : ArchiveEnv) (maxRetries : Nat) : Bool :=
  match fetchLoop env.fetch env.jit maxRetries 0 (maxRetries + 1) with
  | (.content c, _, _) => c.isEmpty
  | _ => true

/-- C1: `archive_article` writes to the Ledger only after `upload_file`
reported success and, when verification is enabled, only after
`verify_file_uploaded` also reported success; every falsy return leaves
the ledger unchanged; and any fetch failure, upload failure or
verification failure produces a falsy return. -/
theorem archive_article_ledger_order (env : ArchiveEnv)
    (db : List UploadRecord) (url bucket : String) (maxRetries : Nat)
    (verifyUpload : Bool) :
    ((archive_article env db url bucket maxRetries
        verifyUpload).ledgerWrote = true →
      env.uploadResult = true ∧
        (verifyUpload = true → env.verifyResult = true)) ∧
    (isTruthy (archive_article env db url bucket maxRetries
        verifyUpload).result = false →
      (archive_article env db url bucket maxRetries verifyUpload).db = db ∧
      (archive_article env db url bucket maxRetries
        verifyUpload).ledgerWrote = false) ∧
    (is_archived db url = false →
      (fetchFailed env maxRetries = true ∨ env.uploadResult = false ∨
        (verifyUpload = true ∧ env.verifyResult = false)) →
      isTruthy (archive_article env db url bucket maxRetries
        verifyUpload).result = false) := by
  by_cases harch : is_archived db url = true
  · simp [archive_article, harch, isTruthy]
  · have harch' : is_archived db url = false := by
      cases h : is_archived db url
      · rfl
      · exact absurd h harch
    rcases hfl : fetchLoop env.fetch env.jit maxRetries 0 (maxRetries + 1)
      with ⟨res, n, ws⟩
    cases res with
    | content c =>
      cases hc : c.isEmpty <;>
        cases hu : env.uploadResult <;>
        cases verifyUpload <;>
        cases hv : env.verifyResult <;>
        simp [archive_article, fetchFailed, harch', hfl, hc, hu, hv,
          isTruthy]
    | notFound =>
      simp [archive_article, fetchFailed, harch', hfl, isTruthy]
    | failed =>
      simp [archive_article, fetchFailed, harch', hfl, isTruthy]
    | exhausted =>
      simp [archive_article, fetchFailed, harch', hfl, isTruthy]

/-- Witness for C1: a 404 fetch yields a falsy result, and the ledger
clause of the theorem then gives an unchanged ledger. -/
theorem archive_article_ledger_order_witness :
    isTruthy (archive_article env404 [] "u" "b" 1 false).result = false ∧
    (archive_article env404 [] "u" "b" 1 false).db = [] ∧
    (archive_article env404 [] "u" "b" 1 false).ledgerWrote = false := by
  have h := (archive_article_ledger_order env404 [] "u" "b" 1 false).2.1
  have hres : isTruthy (archive_article env404 [] "u" "b" 1
      false).result = false := by decide
  exact ⟨hres, h hres⟩

/-- A concrete article URL of the spec scenario. -/
def url0 : String :=
  "http://www.mingpaocanada.com/tor/htm/News/20250101/HK-gaa1_r.htm"

/-- Counterexample to C9 as stated: with one dispatched URL whose fetch
answers 404, the run archives nothing (final ledger empty, success
count 0), yet the per-date index contribution contains the key of that
URL, so not every tracked key corresponds to a successfully archived
article. -/
theorem monthly_index_unarchived_key :
    (processDate (fun _ => env404) [] [url0] "bucket" 3 false).1 = [] ∧
    (processDate (fun _ => env404) [] [url0] "bucket" 3 false).2.1 = 0 ∧
    (processDate (fun _ => env404) [] [url0] "bucket" 3 false).2.2 =
      ["20250101/HK-gaa1_r.htm"] ∧
    is_archived
      (processDate (fun _ => env404) [] [url0] "bucket" 3 false).1
      url0 = false := by
  decide

/-- C9 amended: `articles_by_month` receives, for each date, exactly
the keys extracted from every URL dispatched that date, independent of
the archive results and of the ledger: a key is tracked iff some
dispatched URL matches the article pattern with that key. -/
theorem monthly_index_tracks_dispatched (envOf : String → ArchiveEnv)
    (db : List UploadRecord) (urls : List String) (bucket : String)
    (maxRetries : Nat) (verifyUpload : Bool) :
    (processDate envOf db urls bucket maxRetries verifyUpload).2.2 =
      urls.filterMap extractKey ∧
    (∀ k, k ∈ (processDate envOf db urls bucket maxRetries
        verifyUpload).2.2 ↔ ∃ u ∈ urls, extractKey u = some k) := by
  refine ⟨rfl, fun k => ?_⟩
  simp [processDate, trackDateKeys, List.mem_filterMap]

/-- C10: called with the empty key list, `get_titles_by_keys` fails
(the generated SQL has a malformed "IN ()" clause); for every non-empty
list it succeeds and the domain of the returned map is exactly the
requested keys present in the uploads table; and the Orchestrator's
guard at the only call site never propagates the failure. -/
theorem get_titles_by_keys_spec (db : List UploadRecord)
    (keys : List String) :
    get_titles_by_keys db [] = Except.error () ∧
    (keys ≠ [] → ∃ m, get_titles_by_keys db keys = Except.ok m ∧
      ∀ k, k ∈ m.map Prod.fst ↔ (k ∈ keys ∧ ∃ r ∈ db, r.ia_key = k)) ∧
    mainTitlesLookup db [] = Except.ok [] ∧
    (∀ ks : List String, (mainTitlesLookup db ks).isOk = true) := by
  refine ⟨rfl, fun hne => ?_, rfl, fun ks => ?_⟩
  · refine ⟨db.filterMap (fun r =>
      if r.ia_key ∈ keys then some (r.ia_key, r.title) else none),
      by rw [get_titles_by_keys, if_neg hne], fun k => ?_⟩
    constructor
    · intro hk
      rcases List.mem_map.1 hk with ⟨⟨k', t⟩, hmem, hfst⟩
      rcases List.mem_filterMap.1 hmem with ⟨r, hr, hfr⟩
      by_cases hc : r.ia_key ∈ keys
      · rw [if_pos hc] at hfr
        cases hfr
        cases hfst
        exact ⟨hc, r, hr, rfl⟩
      · rw [if_neg hc] at hfr
        cases hfr
    · rintro ⟨hkk, r, hr, rfl⟩
      exact List.mem_map.2 ⟨(r.ia_key, r.title),
        List.mem_filterMap.2 ⟨r, hr, if_pos hkk⟩, rfl⟩
  · cases ks with
    | nil => rfl
    | cons a l =>
      rw [mainTitlesLookup]
      rw [if_neg (by simp), get_titles_by_keys, if_neg (by simp)]
      rfl

/-- Witness for C10: concrete evaluation on a one-row table, the empty
list failing and a two-key lookup returning the single existing key. -/
theorem get_titles_by_keys_spec_witness :
    get_titles_by_keys dbOne [] = Except.error () ∧
    get_titles_by_keys dbOne ["k", "z"] =
      Except.ok [("k", (none : Option String))] :=
  ⟨(get_titles_by_keys_spec dbOne ["k", "z"]).1, by rfl⟩

end MingPao
